import Mathlib

/-!
Verification of the batched address-classification pipeline (`main.py`).

The embedding models the core orchestration of `main.py`:
`process_address_batch_with_backoff`, `create_batches`, and the control
flow of `main`.  The remote classifier (`_generate_country_results_sync`)
is opaque in the source (an external LLM call); it is passed in as a
function from the attempt number to either a parsed result list or an
exception, mirroring how the Python code sees it (a call that either
returns parsed JSON or raises).  `random.random()` draws are passed in as
an explicit jitter sequence.  Python floats are modelled as rationals;
Python dicts with optional keys as structures of `Option` fields.
-/

namespace AddressClassify

/-- Failure kinds of the remote classification call, per the spec's error
taxonomy.  The Python source catches every exception uniformly
(`except Exception as e`), so the loop below never inspects the kind. -/
inductive ApiError
  | RateLimited
  | ServiceUnavailable
  | TransportError
  | MalformedResponse
  | Other (msg : String)
deriving DecidableEq, Repr

/-- One parsed result object from the remote response's `results` list.
Each field models a JSON key that may be absent (`dict.get`): `shortForm`,
`longForm`, and numeric `confidence`. -/
structure ClassResult where
  shortForm : Option String
  longForm : Option String
  confidence : Option ℚ
deriving DecidableEq, Repr

/-- One row written by `writer.writerow(result_line)`.  `result_line`
starts as `{"address": address}` and then either gains the fields of
`results[i]` (success branch: `result_line.update(results[i])`) or an
`"error"` entry.  Absent columns are `none`. -/
structure OutputRecord where
  address : String
  shortForm : Option String
  longForm : Option String
  confidence : Option ℚ
  error : Option String
deriving DecidableEq, Repr

/-- The error text written on the per-address rejection branch
(`result_line["error"] = "Confidence too low or unknown"`). -/
def lowConfidenceMsg : String := "Confidence too low or unknown"

/-- Python's `str.strip()` with no argument: remove leading and trailing
whitespace characters. -/
def pyStrip (s : String) : String :=
  ⟨((s.data.dropWhile Char.isWhitespace).reverse.dropWhile Char.isWhitespace).reverse⟩

/-- `[addr for addr in batch if addr and addr.strip()]`: keep addresses
that are truthy (nonempty) and whose stripped form is truthy (nonempty). -/
def validAddresses (batch : List String) : List String :=
  batch.filter (fun addr => addr != "" && pyStrip addr != "")

/-- The confidence threshold `0.7` of the source, as the exact rational
7/10 (spelled `mkRat` so that concrete instances evaluate). -/
def confidenceThreshold : ℚ := mkRat 7 10

/-- The body of the `for i, address in enumerate(valid_addresses)` loop
for one address: `if i < len(results) and results[i].get("confidence", 0.0)
>= 0.7 and results[i].get("shortForm") != "UNKNOWN"` then merge the result
fields into the row, else set the error text. -/
def mkRecord (results : List ClassResult) (i : ℕ) (address : String) : OutputRecord :=
  match results[i]? with
  | some r =>
    if confidenceThreshold ≤ r.confidence.getD 0 ∧ r.shortForm ≠ some "UNKNOWN" then
      { address := address, shortForm := r.shortForm, longForm := r.longForm,
        confidence := r.confidence, error := none }
    else
      { address := address, shortForm := none, longForm := none, confidence := none,
        error := some lowConfidenceMsg }
  | none =>
      { address := address, shortForm := none, longForm := none, confidence := none,
        error := some lowConfidenceMsg }

/-- The full `for i, address in enumerate(valid_addresses)` loop: one
output row per valid address, in batch order, with `i` the position in the
valid list. -/
def mkRecords (results : List ClassResult) : ℕ → List String → List OutputRecord
  | _, [] => []
  | i, addr :: rest => mkRecord results i addr :: mkRecords results (i + 1) rest

/-- Outcome of one batch task: either it returned normally after writing
`records`, or it raised (`raise Exception("Maximum retries exceeded…")`). -/
inductive BatchOutcome
  | success (records : List OutputRecord)
  | fatal (msg : String)
deriving DecidableEq, Repr

/-- `BatchOutcome.isFatal o` is true when the batch task raised. -/
def BatchOutcome.isFatal : BatchOutcome → Bool
  | .success _ => false
  | .fatal _ => true

/-- The records a batch task wrote; a fatal batch wrote none. -/
def outcomeRecords : BatchOutcome → List OutputRecord
  | .success recs => recs
  | .fatal _ => []

/-- Result of one run of `process_address_batch_with_backoff`: the outcome
plus the trace of `asyncio.sleep(delay)` durations, in order. -/
structure RunResult where
  outcome : BatchOutcome
  sleeps : List ℚ
deriving DecidableEq, Repr

/-- The message of the exception raised on retry exhaustion:
`f"Maximum retries exceeded for batch starting with: {batch[0]}"`. -/
def fatalMsg (batch : List String) : String :=
  "Maximum retries exceeded for batch starting with: " ++ batch.headD ""

/-- The `while True` loop of `process_address_batch_with_backoff`.

State per iteration: `numRetries` (the source's `num_retries`, also the
index of the next classification attempt and of the next jitter draw),
`retriesLeft` (recast of the source's bound: the source raises when
`num_retries + 1 > max_retries` with `max_retries = 10`, i.e. exactly when
`retriesLeft = 10 - num_retries` has reached `0`; keeping the remaining
count as an argument makes the recursion structural — the loop body is
spelled once per `retriesLeft` shape, with the only difference the
raise-versus-retry step of the `except` clause), the current `delay`, and
the accumulated sleep trace.

Body, as in the source: filter blank addresses and return silently if none
remain; call the classifier; on a parsed response build and write one row
per valid address and return; on any exception either raise (retries
exhausted) or grow the delay by `delay *= 2 * (1 + random.random())`,
sleep for it, and loop. -/
def processLoop (classify : ℕ → Except ApiError (List ClassResult)) (jitter : ℕ → ℚ)
    (batch : List String) : ℕ → ℕ → ℚ → List ℚ → RunResult
  | numRetries, 0, _, sleeps =>
    if (validAddresses batch).isEmpty then ⟨.success [], sleeps⟩
    else
      match classify numRetries with
      | .ok results => ⟨.success (mkRecords results 0 (validAddresses batch)), sleeps⟩
      | .error _ => ⟨.fatal (fatalMsg batch), sleeps⟩
  | numRetries, left + 1, delay, sleeps =>
    if (validAddresses batch).isEmpty then ⟨.success [], sleeps⟩
    else
      match classify numRetries with
      | .ok results => ⟨.success (mkRecords results 0 (validAddresses batch)), sleeps⟩
      | .error _ =>
        processLoop classify jitter batch (numRetries + 1) left
          (delay * 2 * (1 + jitter numRetries))
          (sleeps ++ [delay * 2 * (1 + jitter numRetries)])

/-- `process_address_batch_with_backoff(batch, …)`: run the retry loop
from `num_retries = 0`, `delay = initial_delay = 1`, with `max_retries =
10` retries available and an empty sleep trace. -/
def process_address_batch_with_backoff (classify : ℕ → Except ApiError (List ClassResult))
    (jitter : ℕ → ℚ) (batch : List String) : RunResult :=
  processLoop classify jitter batch 0 10 1 []

/-- Fuel-indexed form of `create_batches`; the Python generator
`for i in range(0, len(items), size): yield items[i:i + size]` performs at
most `len(items)` iterations for positive `size`, each yielding the next
`size`-element slice and advancing past it. -/
def create_batchesAux (size : ℕ) : ℕ → List String → List (List String)
  | 0, _ => []
  | _ + 1, [] => []
  | fuel + 1, a :: l => (a :: l).take size :: create_batchesAux size fuel ((a :: l).drop size)

/-- `create_batches(items, size)`: successive `size`-element chunks of
`items`, in order. -/
def create_batches (items : List String) (size : ℕ) : List (List String) :=
  create_batchesAux size items.length items

/-- The sequence of values taken by the loop's `delay` variable, starting
from `initial_delay = 1` with update `delay *= exponential_base * (1 +
random.random())`, the `n`-th jitter draw being `jitter n`. -/
def delaySeq (jitter : ℕ → ℚ) : ℕ → ℚ
  | 0 => 1
  | n + 1 => delaySeq jitter n * 2 * (1 + jitter n)

/-- The sleep durations of `n` consecutive retries, starting at attempt
`r` with current delay `d`. -/
def sleepsFrom (jitter : ℕ → ℚ) (r : ℕ) (d : ℚ) : ℕ → List ℚ
  | 0 => []
  | n + 1 =>
    (d * 2 * (1 + jitter r)) :: sleepsFrom jitter (r + 1) (d * 2 * (1 + jitter r)) n

/-- Substituting one failure kind for another in a classifier's behavior:
same successes, all failures replaced by kind `e`. -/
def mapErrKind (e : ApiError) (classify : ℕ → Except ApiError (List ClassResult))
    (k : ℕ) : Except ApiError (List ClassResult) :=
  match classify k with
  | .ok v => .ok v
  | .error _ => .error e

/-- A classifier stub that fails with kind `e` on the first `K` attempts
and then returns `results`. -/
def classifyStub (K : ℕ) (e : ApiError) (results : List ClassResult) (k : ℕ) :
    Except ApiError (List ClassResult) :=
  if k < K then .error e else .ok results

/-- The output-record shape required by the spec: exactly one of (all
three success fields present) or (the error field present). -/
def shapeExactlyOne (o : OutputRecord) : Prop :=
  ((o.shortForm.isSome ∧ o.longForm.isSome ∧ o.confidence.isSome) ∧ o.error = none)
  ∨ (¬(o.shortForm.isSome ∧ o.longForm.isSome ∧ o.confidence.isSome) ∧ o.error ≠ none)

/-- The observable outcome of one `main(...)` invocation. -/
structure MainResult where
  missingInputError : Bool
  outputWritten : Bool
  exitCode : ℕ
deriving DecidableEq, Repr

/-- The control flow of `main(input_csv, output_csv, concurrency,
batch_size)` plus process-exit behavior, with I/O abstracted:

* `inputExists` stands for `os.path.isfile(input_csv)`; when false, `main`
  prints the error message and returns normally, so `asyncio.run` finishes
  and the interpreter exits with status 0, having never opened the output.
* `addresses` stands for the rows read from the input (first column,
  header skipped); when empty, `main` prints a notice and returns (exit 0,
  no output file opened).
* Otherwise the output file is opened and the header written, one task per
  batch runs (`classifyFor i` is the classifier behavior seen by batch
  `i`), and `tqdm_asyncio.gather` re-raises the first task exception, so
  the interpreter exits non-zero (modelled as code 1) exactly when some
  batch exhausts its retries; otherwise `main` prints the summary and the
  process exits 0. -/
def main_run (inputExists : Bool) (addresses : List String)
    (classifyFor : ℕ → ℕ → Except ApiError (List ClassResult)) (jitter : ℕ → ℚ)
    (batchSize : ℕ) : MainResult :=
  if !inputExists then ⟨true, false, 0⟩
  else if addresses.isEmpty then ⟨false, false, 0⟩
  else
    let batches := create_batches addresses batchSize
    let anyFatal := batches.enum.any (fun p =>
      ((process_address_batch_with_backoff (classifyFor p.1) jitter p.2).outcome).isFatal)
    ⟨false, true, if anyFatal then 1 else 0⟩

/-! ### Unfolding lemmas for the loop -/

theorem processLoop_zero (classify : ℕ → Except ApiError (List ClassResult))
    (jitter : ℕ → ℚ) (batch : List String) (r : ℕ) (d : ℚ) (s : List ℚ) :
    processLoop classify jitter batch r 0 d s =
      if (validAddresses batch).isEmpty then ⟨.success [], s⟩
      else
        match classify r with
        | .ok results => ⟨.success (mkRecords results 0 (validAddresses batch)), s⟩
        | .error _ => ⟨.fatal (fatalMsg batch), s⟩ := rfl

theorem processLoop_succ (classify : ℕ → Except ApiError (List ClassResult))
    (jitter : ℕ → ℚ) (batch : List String) (r left : ℕ) (d : ℚ) (s : List ℚ) :
    processLoop classify jitter batch r (left + 1) d s =
      if (validAddresses batch).isEmpty then ⟨.success [], s⟩
      else
        match classify r with
        | .ok results => ⟨.success (mkRecords results 0 (validAddresses batch)), s⟩
        | .error _ =>
          processLoop classify jitter batch (r + 1) left
            (d * 2 * (1 + jitter r))
            (s ++ [d * 2 * (1 + jitter r)]) := rfl

/-! ### Basic record lemmas -/

theorem mkRecord_address (results : List ClassResult) (i : ℕ) (addr : String) :
    (mkRecord results i addr).address = addr := by
  unfold mkRecord
  cases results[i]? with
  | none => rfl
  | some r => dsimp only; split <;> rfl

theorem mkRecords_map_address (results : List ClassResult) :
    ∀ (i : ℕ) (addrs : List String),
      (mkRecords results i addrs).map OutputRecord.address = addrs := by
  intro i addrs
  induction addrs generalizing i with
  | nil => rfl
  | cons a rest ih => simp [mkRecords, mkRecord_address, ih]

theorem mkRecords_length (results : List ClassResult) :
    ∀ (i : ℕ) (addrs : List String),
      (mkRecords results i addrs).length = addrs.length := by
  intro i addrs
  induction addrs generalizing i with
  | nil => rfl
  | cons a rest ih => simp [mkRecords, ih]

theorem mkRecord_error_cases (results : List ClassResult) (i : ℕ) (addr : String) :
    (mkRecord results i addr).error = none ∨
      (mkRecord results i addr).error = some lowConfidenceMsg := by
  unfold mkRecord
  cases results[i]? with
  | none => exact Or.inr rfl
  | some r =>
    dsimp only
    split
    · exact Or.inl rfl
    · exact Or.inr rfl

theorem mkRecords_mem (results : List ClassResult) :
    ∀ (i : ℕ) (addrs : List String) (o : OutputRecord),
      o ∈ mkRecords results i addrs →
      ∃ j addr, addr ∈ addrs ∧ o = mkRecord results j addr := by
  intro i addrs
  induction addrs generalizing i with
  | nil => intro o h; simp [mkRecords] at h
  | cons a rest ih =>
    intro o h
    simp only [mkRecords, List.mem_cons] at h
    rcases h with h | h
    · exact ⟨i, a, List.mem_cons_self a rest, h⟩
    · obtain ⟨j, addr, hmem, rfl⟩ := ih (i + 1) o h
      exact ⟨j, addr, List.mem_cons_of_mem a hmem, rfl⟩

/-! ### Loop lemmas -/

theorem processLoop_run_to_success (classify : ℕ → Except ApiError (List ClassResult))
    (jitter : ℕ → ℚ) (batch : List String) (hv : validAddresses batch ≠ []) :
    ∀ (n r left : ℕ) (d : ℚ) (s : List ℚ) (results : List ClassResult),
      n ≤ left →
      (∀ k, r ≤ k → k < r + n → ∃ e, classify k = .error e) →
      classify (r + n) = .ok results →
      processLoop classify jitter batch r left d s =
        ⟨.success (mkRecords results 0 (validAddresses batch)), s ++ sleepsFrom jitter r d n⟩ := by
  intro n
  induction n with
  | zero =>
    intro r left d s results _ _ hok
    rw [Nat.add_zero] at hok
    cases left with
    | zero =>
      rw [processLoop_zero]
      simp [List.isEmpty_iff, hv, hok, sleepsFrom]
    | succ left =>
      rw [processLoop_succ]
      simp [List.isEmpty_iff, hv, hok, sleepsFrom]
  | succ n ih =>
    intro r left d s results hle herr hok
    obtain ⟨left', rfl⟩ : ∃ l, left = l + 1 := ⟨left - 1, by omega⟩
    obtain ⟨e, he⟩ := herr r (le_refl r) (by omega)
    rw [processLoop_succ]
    rw [if_neg (by simpa [List.isEmpty_iff] using hv)]
    rw [he]
    show processLoop classify jitter batch (r + 1) left'
        (d * 2 * (1 + jitter r)) (s ++ [d * 2 * (1 + jitter r)]) = _
    rw [ih (r + 1) left' (d * 2 * (1 + jitter r)) (s ++ [d * 2 * (1 + jitter r)]) results
      (by omega) (fun k hk1 hk2 => herr k (by omega) (by omega))
      (by rw [show r + 1 + n = r + (n + 1) by omega]; exact hok)]
    simp [sleepsFrom, List.append_assoc]

theorem processLoop_run_to_fatal (classify : ℕ → Except ApiError (List ClassResult))
    (jitter : ℕ → ℚ) (batch : List String) (hv : validAddresses batch ≠ []) :
    ∀ (left r : ℕ) (d : ℚ) (s : List ℚ),
      (∀ k, r ≤ k → k ≤ r + left → ∃ e, classify k = .error e) →
      processLoop classify jitter batch r left d s =
        ⟨.fatal (fatalMsg batch), s ++ sleepsFrom jitter r d left⟩ := by
  intro left
  induction left with
  | zero =>
    intro r d s herr
    obtain ⟨e, he⟩ := herr r le_rfl (by omega)
    rw [processLoop_zero]
    simp [List.isEmpty_iff, hv, he, sleepsFrom]
  | succ left ih =>
    intro r d s herr
    obtain ⟨e, he⟩ := herr r le_rfl (by omega)
    rw [processLoop_succ]
    rw [if_neg (by simpa [List.isEmpty_iff] using hv)]
    rw [he]
    show processLoop classify jitter batch (r + 1) left
        (d * 2 * (1 + jitter r)) (s ++ [d * 2 * (1 + jitter r)]) = _
    rw [ih (r + 1) (d * 2 * (1 + jitter r)) (s ++ [d * 2 * (1 + jitter r)])
      (fun k hk1 hk2 => herr k (by omega) (by omega))]
    simp [sleepsFrom, List.append_assoc]

theorem processLoop_success_char (classify : ℕ → Except ApiError (List ClassResult))
    (jitter : ℕ → ℚ) (batch : List String) :
    ∀ (left r : ℕ) (d : ℚ) (s : List ℚ) (recs : List OutputRecord) (s' : List ℚ),
      processLoop classify jitter batch r left d s = ⟨.success recs, s'⟩ →
      (validAddresses batch = [] ∧ recs = []) ∨
        ∃ k results, classify k = .ok results ∧
          recs = mkRecords results 0 (validAddresses batch) := by
  intro left
  induction left with
  | zero =>
    intro r d s recs s' h
    rw [processLoop_zero] at h
    split at h
    next hv =>
      simp only [RunResult.mk.injEq, BatchOutcome.success.injEq] at h
      exact Or.inl ⟨by simpa [List.isEmpty_iff] using hv, h.1.symm⟩
    next hv =>
      split at h
      next results hc =>
        simp only [RunResult.mk.injEq, BatchOutcome.success.injEq] at h
        exact Or.inr ⟨r, results, hc, h.1.symm⟩
      next e hc =>
        simp at h
  | succ left ih =>
    intro r d s recs s' h
    rw [processLoop_succ] at h
    split at h
    next hv =>
      simp only [RunResult.mk.injEq, BatchOutcome.success.injEq] at h
      exact Or.inl ⟨by simpa [List.isEmpty_iff] using hv, h.1.symm⟩
    next hv =>
      split at h
      next results hc =>
        simp only [RunResult.mk.injEq, BatchOutcome.success.injEq] at h
        exact Or.inr ⟨r, results, hc, h.1.symm⟩
      next e hc =>
        exact ih _ _ _ _ _ h

theorem processLoop_mapErrKind (e : ApiError)
    (classify : ℕ → Except ApiError (List ClassResult)) (jitter : ℕ → ℚ)
    (batch : List String) :
    ∀ (left r : ℕ) (d : ℚ) (s : List ℚ),
      processLoop (mapErrKind e classify) jitter batch r left d s =
        processLoop classify jitter batch r left d s := by
  intro left
  induction left with
  | zero =>
    intro r d s
    rw [processLoop_zero, processLoop_zero]
    cases hc : classify r <;> simp [mapErrKind, hc]
  | succ left ih =>
    intro r d s
    rw [processLoop_succ, processLoop_succ]
    cases hc : classify r <;> simp [mapErrKind, hc, ih]

/-! ### Delay lemmas -/

theorem delaySeq_pos (jitter : ℕ → ℚ) (hj : ∀ n, 0 ≤ jitter n) :
    ∀ n, 0 < delaySeq jitter n := by
  intro n
  induction n with
  | zero => norm_num [delaySeq]
  | succ n ih =>
    have h := hj n
    have : delaySeq jitter (n + 1) = delaySeq jitter n * 2 * (1 + jitter n) := rfl
    rw [this]
    nlinarith

theorem delaySeq_lt_succ (jitter : ℕ → ℚ) (hj : ∀ n, 0 ≤ jitter n) (n : ℕ) :
    delaySeq jitter n < delaySeq jitter (n + 1) := by
  have hp := delaySeq_pos jitter hj n
  have h := hj n
  have : delaySeq jitter (n + 1) = delaySeq jitter n * 2 * (1 + jitter n) := rfl
  rw [this]
  nlinarith

theorem sleepsFrom_delaySeq (jitter : ℕ → ℚ) :
    ∀ (n r : ℕ), sleepsFrom jitter r (delaySeq jitter r) n
      = (List.range n).map (fun i => delaySeq jitter (r + i + 1)) := by
  intro n
  induction n with
  | zero => intro r; simp [sleepsFrom]
  | succ n ih =>
    intro r
    rw [sleepsFrom]
    have hd : delaySeq jitter r * 2 * (1 + jitter r) = delaySeq jitter (r + 1) := rfl
    rw [hd, ih (r + 1), List.range_succ_eq_map]
    simp only [List.map_cons, List.map_map, Nat.add_zero]
    congr 1
    congr 1
    funext i
    simp only [Function.comp]
    congr 1
    omega

/-! ### Batch partition lemmas -/

theorem create_batchesAux_nil (size fuel : ℕ) : create_batchesAux size fuel [] = [] := by
  cases fuel <;> rfl

theorem create_batchesAux_join (size : ℕ) (hsz : 0 < size) :
    ∀ (fuel : ℕ) (items : List String), items.length ≤ fuel →
      (create_batchesAux size fuel items).flatten = items := by
  intro fuel
  induction fuel with
  | zero =>
    intro items h
    have : items = [] := List.length_eq_zero.mp (by omega)
    subst this
    rfl
  | succ fuel ih =>
    intro items h
    cases items with
    | nil => rfl
    | cons a l =>
      rw [create_batchesAux, List.flatten_cons]
      rw [ih ((a :: l).drop size)
        (by simp only [List.length_drop, List.length_cons]
            simp only [List.length_cons] at h
            omega)]
      exact List.take_append_drop size (a :: l)

theorem create_batchesAux_length_le (size : ℕ) :
    ∀ (fuel : ℕ) (items : List String) (c : List String),
      c ∈ create_batchesAux size fuel items → c.length ≤ size := by
  intro fuel
  induction fuel with
  | zero => intro items c hc; simp [create_batchesAux] at hc
  | succ fuel ih =>
    intro items c hc
    cases items with
    | nil => simp [create_batchesAux] at hc
    | cons a l =>
      rw [create_batchesAux] at hc
      rcases List.mem_cons.mp hc with rfl | hmem
      · rw [List.length_take]
        omega
      · exact ih ((a :: l).drop size) c hmem

theorem create_batchesAux_dropLast (size : ℕ) :
    ∀ (fuel : ℕ) (items : List String) (c : List String),
      c ∈ (create_batchesAux size fuel items).dropLast → c.length = size := by
  intro fuel
  induction fuel with
  | zero => intro items c hc; simp [create_batchesAux] at hc
  | succ fuel ih =>
    intro items c hc
    cases items with
    | nil => simp [create_batchesAux] at hc
    | cons a l =>
      rw [create_batchesAux] at hc
      cases hrest : create_batchesAux size fuel ((a :: l).drop size) with
      | nil => rw [hrest] at hc; simp at hc
      | cons b bs =>
        rw [hrest] at hc
        rw [List.dropLast_cons₂] at hc
        rcases List.mem_cons.mp hc with rfl | hmem
        · have hdrop : (a :: l).drop size ≠ [] := by
            intro h0
            rw [h0, create_batchesAux_nil] at hrest
            exact List.noConfusion hrest
          have hlen : size < (a :: l).length := by
            by_contra hle
            exact hdrop (List.drop_eq_nil_of_le (by omega))
          rw [List.length_take]
          simp only [List.length_cons] at hlen ⊢
          omega
        · exact ih ((a :: l).drop size) c (by rw [hrest]; exact hmem)

theorem join_map_filter (p : String → Bool) :
    ∀ (l : List (List String)),
      (l.map (fun x => x.filter p)).flatten = (l.flatten).filter p := by
  intro l
  induction l with
  | nil => rfl
  | cons x xs ih => simp only [List.map_cons, List.flatten_cons, List.filter_append, ih]

theorem validAddresses_join (l : List (List String)) :
    (l.map validAddresses).flatten = validAddresses l.flatten :=
  join_map_filter _ l

/-! ### Run-level lemmas -/

theorem batches_records_addresses (classifyFor : ℕ → ℕ → Except ApiError (List ClassResult))
    (jitter : ℕ → ℚ) :
    ∀ (bs : List (List String)) (n : ℕ),
      (∀ p ∈ bs.enumFrom n,
        ((process_address_batch_with_backoff (classifyFor p.1) jitter p.2).outcome).isFatal
          = false) →
      (((bs.enumFrom n).map (fun p =>
          outcomeRecords
            (process_address_batch_with_backoff (classifyFor p.1) jitter p.2).outcome)).flatten).map
        OutputRecord.address = (bs.map validAddresses).flatten := by
  intro bs
  induction bs with
  | nil => intro n _; rfl
  | cons b rest ih =>
    intro n h
    simp only [List.enumFrom_cons, List.map_cons, List.flatten_cons, List.map_append]
    rw [ih (n + 1) (fun p hp => h p (List.mem_cons_of_mem _ hp))]
    congr 1
    have hnf := h (n, b) (List.mem_cons_self _ _)
    dsimp only at hnf
    rcases ho : process_address_batch_with_backoff (classifyFor n) jitter b with ⟨out, sl⟩
    cases out with
    | fatal m =>
      rw [ho] at hnf
      simp [BatchOutcome.isFatal] at hnf
    | success recs =>
      rcases processLoop_success_char (classifyFor n) jitter b 10 0 1 [] recs sl ho with
        ⟨hv, rfl⟩ | ⟨k, results, hok, rfl⟩
      · simp [outcomeRecords, hv]
      · simp [outcomeRecords, mkRecords_map_address]

/-! ### Claims -/

/-- C6: `create_batches(addresses, size)` with positive `size` is a pure
function whose chunks, concatenated in order, equal the original sequence;
every chunk has length at most `size`, and every chunk except possibly the
last has length exactly `size`. -/
theorem C6_create_batches_partition (addresses : List String) (size : ℕ) (hsz : 0 < size) :
    (create_batches addresses size).flatten = addresses ∧
    (∀ c ∈ create_batches addresses size, c.length ≤ size) ∧
    (∀ c ∈ (create_batches addresses size).dropLast, c.length = size) :=
  ⟨create_batchesAux_join size hsz addresses.length addresses le_rfl,
   fun c hc => create_batchesAux_length_le size addresses.length addresses c hc,
   fun c hc => create_batchesAux_dropLast size addresses.length addresses c hc⟩

/-- C6 witness: a concrete instantiation of the partition theorem. -/
theorem C6_create_batches_partition_witness :
    (create_batches ["a", "b", "c"] 2).flatten = ["a", "b", "c"] :=
  (C6_create_batches_partition ["a", "b", "c"] 2 (by decide)).1

/-- C2 counterexample: a stub failing with the rate-limit kind exactly
K = 10 times and then succeeding makes the batch SUCCEED after ten retries
(ten sleeps), where the claim says K ≥ 10 fails fatally. -/
theorem C2_counterexample :
    (process_address_batch_with_backoff
        (classifyStub 10 .RateLimited [⟨some "US", some "United States", some 1⟩])
        (fun _ => 0) ["a"]).outcome
      = .success [⟨"a", some "US", some "United States", some 1, none⟩] ∧
    (process_address_batch_with_backoff
        (classifyStub 10 .RateLimited [⟨some "US", some "United States", some 1⟩])
        (fun _ => 0) ["a"]).sleeps.length = 10 :=
  ⟨by decide, by decide⟩

/-- C2 (amended): with a classifier stub that fails exactly K times and
then succeeds, the batch completes successfully (with its normal
per-address records, after K backoff sleeps) when K ≤ 10, and fails
fatally with the maximum-retries error (after 10 sleeps) when K ≥ 11. -/
theorem C2_retry_exhaustion (K : ℕ) (e : ApiError) (results : List ClassResult)
    (jitter : ℕ → ℚ) (batch : List String) (hv : validAddresses batch ≠ []) :
    (K ≤ 10 →
      process_address_batch_with_backoff (classifyStub K e results) jitter batch =
        ⟨.success (mkRecords results 0 (validAddresses batch)), sleepsFrom jitter 0 1 K⟩) ∧
    (11 ≤ K →
      process_address_batch_with_backoff (classifyStub K e results) jitter batch =
        ⟨.fatal (fatalMsg batch), sleepsFrom jitter 0 1 10⟩) := by
  constructor
  · intro hK
    have hrun := processLoop_run_to_success (classifyStub K e results) jitter batch hv
      K 0 10 1 [] results hK
      (fun k hk1 hk2 => ⟨e, by unfold classifyStub; rw [if_pos (by omega)]⟩)
      (by unfold classifyStub; rw [if_neg (by omega)])
    unfold process_address_batch_with_backoff
    simpa using hrun
  · intro hK
    have hrun := processLoop_run_to_fatal (classifyStub K e results) jitter batch hv
      10 0 1 []
      (fun k hk1 hk2 => ⟨e, by unfold classifyStub; rw [if_pos (by omega)]⟩)
    unfold process_address_batch_with_backoff
    simpa using hrun

/-- C2 witness: K = 11 rate-limit failures on the batch `["x"]` end in the
fatal maximum-retries outcome. -/
theorem C2_retry_exhaustion_witness :
    process_address_batch_with_backoff
        (classifyStub 11 ApiError.RateLimited []) (fun _ => 0) ["x"] =
      ⟨.fatal (fatalMsg ["x"]), sleepsFrom (fun _ => 0) 0 1 10⟩ :=
  (C2_retry_exhaustion 11 .RateLimited [] (fun _ => 0) ["x"] (by decide)).2 (by decide)

/-- C1 counterexample: a two-address batch whose call fails once with
MalformedResponse. The code retries (one sleep) and then writes the normal
per-address records, whose error fields are absent — not records starting
with "Batch failed:". -/
theorem C1_counterexample :
    (process_address_batch_with_backoff
        (classifyStub 1 .MalformedResponse
          [⟨some "US", some "United States", some 1⟩,
           ⟨some "FR", some "France", some (mkRat 9 10)⟩])
        (fun _ => 0) ["a", "b"]).outcome
      = .success [⟨"a", some "US", some "United States", some 1, none⟩,
                  ⟨"b", some "FR", some "France", some (mkRat 9 10), none⟩] ∧
    (process_address_batch_with_backoff
        (classifyStub 1 .MalformedResponse
          [⟨some "US", some "United States", some 1⟩,
           ⟨some "FR", some "France", some (mkRat 9 10)⟩])
        (fun _ => 0) ["a", "b"]).sleeps.length = 1 :=
  ⟨by decide, by decide⟩

/-- C1 (amended): the retry loop never inspects the failure kind —
substituting any kind (e.g. RateLimited) for every failure leaves the run
unchanged, so ServiceUnavailable, TransportError and MalformedResponse are
retried exactly like rate limits — and no record it writes ever carries a
"Batch failed:" error: every record's error field is either absent or the
low-confidence text. -/
theorem C1_uniform_error_handling (e : ApiError)
    (classify : ℕ → Except ApiError (List ClassResult)) (jitter : ℕ → ℚ)
    (batch : List String) :
    process_address_batch_with_backoff (mapErrKind e classify) jitter batch =
      process_address_batch_with_backoff classify jitter batch ∧
    ∀ o ∈ outcomeRecords (process_address_batch_with_backoff classify jitter batch).outcome,
      o.error = none ∨ o.error = some lowConfidenceMsg := by
  constructor
  · exact processLoop_mapErrKind e classify jitter batch 10 0 1 []
  · intro o ho
    rcases hrun : process_address_batch_with_backoff classify jitter batch with ⟨out, sl⟩
    rw [hrun] at ho
    cases out with
    | fatal m => simp [outcomeRecords] at ho
    | success recs =>
      rcases processLoop_success_char classify jitter batch 10 0 1 [] recs sl hrun with
        ⟨hv, rfl⟩ | ⟨k, results, hok, rfl⟩
      · simp [outcomeRecords] at ho
      · simp only [outcomeRecords] at ho
        obtain ⟨j, addr, hmem, rfl⟩ := mkRecords_mem results 0 _ o ho
        exact mkRecord_error_cases results j addr

/-- C1 witness: a concrete record of a successful run has its error field
absent or equal to the low-confidence text. -/
theorem C1_uniform_error_handling_witness :
    (mkRecord [] 0 "a").error = none ∨ (mkRecord [] 0 "a").error = some lowConfidenceMsg :=
  (C1_uniform_error_handling .ServiceUnavailable (fun _ => .ok []) (fun _ => 0) ["a"]).2
    (mkRecord [] 0 "a") (by decide)

/-- C3: when the first call succeeds, the loop returns at once (no sleep,
no retry) with one record per valid address; a record carries the
classification fields exactly when a result exists at its position with
confidence at least 0.7 and shortForm not "UNKNOWN", and otherwise carries
the low-confidence error; confidence 0.69 is rejected and exactly 0.7 is
accepted. -/
theorem C3_success_semantics (classify : ℕ → Except ApiError (List ClassResult))
    (jitter : ℕ → ℚ) (batch : List String) (results : List ClassResult)
    (h0 : classify 0 = .ok results) (hv : validAddresses batch ≠ []) :
    process_address_batch_with_backoff classify jitter batch =
      ⟨.success (mkRecords results 0 (validAddresses batch)), []⟩ ∧
    (∀ i addr, ((mkRecord results i addr).error = none ↔
        ∃ r, results[i]? = some r ∧ confidenceThreshold ≤ r.confidence.getD 0 ∧
          r.shortForm ≠ some "UNKNOWN")) ∧
    (∀ i addr r, results[i]? = some r →
        confidenceThreshold ≤ r.confidence.getD 0 → r.shortForm ≠ some "UNKNOWN" →
        mkRecord results i addr = ⟨addr, r.shortForm, r.longForm, r.confidence, none⟩) ∧
    (∀ i addr r, results[i]? = some r →
        ¬(confidenceThreshold ≤ r.confidence.getD 0 ∧ r.shortForm ≠ some "UNKNOWN") →
        mkRecord results i addr = ⟨addr, none, none, none, some lowConfidenceMsg⟩) ∧
    mkRecord [⟨some "US", some "United States", some (mkRat 69 100)⟩] 0 "x"
      = ⟨"x", none, none, none, some lowConfidenceMsg⟩ ∧
    mkRecord [⟨some "US", some "United States", some (mkRat 7 10)⟩] 0 "x"
      = ⟨"x", some "US", some "United States", some (mkRat 7 10), none⟩ := by
  refine ⟨?_, ?_, ?_, ?_, by decide, by decide⟩
  · have hrun := processLoop_run_to_success classify jitter batch hv 0 0 10 1 [] results
      (by omega) (fun k hk1 hk2 => absurd hk2 (by omega)) (by simpa using h0)
    unfold process_address_batch_with_backoff
    simpa [sleepsFrom] using hrun
  · intro i addr
    unfold mkRecord
    cases hr : results[i]? with
    | none => simp
    | some r =>
      dsimp only
      split
      next hcond => exact ⟨fun _ => ⟨r, rfl, hcond⟩, fun _ => rfl⟩
      next hcond =>
        constructor
        · intro h
          simp [lowConfidenceMsg] at h
        · rintro ⟨r', hr', hc⟩
          rw [Option.some_inj] at hr'
          subst hr'
          exact absurd hc hcond
  · intro i addr r hr hc hs
    unfold mkRecord
    rw [hr]
    dsimp only
    rw [if_pos ⟨hc, hs⟩]
  · intro i addr r hr hcond
    unfold mkRecord
    rw [hr]
    dsimp only
    rw [if_neg hcond]

/-- C3 witness: a concrete success-on-first-call run. -/
theorem C3_success_semantics_witness :
    process_address_batch_with_backoff
        (fun _ => .ok [⟨some "US", some "United States", some 1⟩]) (fun _ => 0) ["a"] =
      ⟨.success (mkRecords [⟨some "US", some "United States", some 1⟩] 0
        (validAddresses ["a"])), []⟩ :=
  (C3_success_semantics (fun _ => .ok [⟨some "US", some "United States", some 1⟩])
    (fun _ => 0) ["a"] [⟨some "US", some "United States", some 1⟩] rfl (by decide)).1

/-- C10: a response whose results list is shorter than the valid-address
list, or a result with no confidence field, causes no failure: the run
still completes with one record per valid address, and every position with
a missing result or missing confidence gets the low-confidence error
record (a missing confidence is read as 0, below the threshold). -/
theorem C10_missing_results_safe (classify : ℕ → Except ApiError (List ClassResult))
    (jitter : ℕ → ℚ) (batch : List String) (results : List ClassResult)
    (h0 : classify 0 = .ok results) (hv : validAddresses batch ≠ []) :
    (process_address_batch_with_backoff classify jitter batch).outcome
      = .success (mkRecords results 0 (validAddresses batch)) ∧
    (mkRecords results 0 (validAddresses batch)).length = (validAddresses batch).length ∧
    (∀ i addr, results.length ≤ i →
        mkRecord results i addr = ⟨addr, none, none, none, some lowConfidenceMsg⟩) ∧
    (∀ i addr r, results[i]? = some r → r.confidence = none →
        mkRecord results i addr = ⟨addr, none, none, none, some lowConfidenceMsg⟩) := by
  refine ⟨?_, mkRecords_length results 0 (validAddresses batch), ?_, ?_⟩
  · have hrun := processLoop_run_to_success classify jitter batch hv 0 0 10 1 [] results
      (by omega) (fun k hk1 hk2 => absurd hk2 (by omega)) (by simpa using h0)
    unfold process_address_batch_with_backoff
    rw [hrun]
  · intro i addr hlen
    unfold mkRecord
    rw [List.getElem?_eq_none hlen]
  · intro i addr r hr hconf
    unfold mkRecord
    rw [hr]
    dsimp only
    rw [if_neg]
    intro hcond
    rw [hconf] at hcond
    exact absurd hcond.1 (by decide)

/-- C10 witness: an empty results list on a one-address batch. -/
theorem C10_missing_results_safe_witness :
    (process_address_batch_with_backoff (fun _ => .ok ([] : List ClassResult))
        (fun _ => 0) ["a"]).outcome
      = .success (mkRecords [] 0 (validAddresses ["a"])) :=
  (C10_missing_results_safe (fun _ => .ok []) (fun _ => 0) ["a"] [] rfl (by decide)).1

/-- C4: in a run where every batch's outcome is a success, the output
records, batch by batch in order, carry exactly the non-blank input
addresses — one record per address that is nonempty and not
whitespace-only, none for blank addresses — so the number of records
equals the number of non-blank input addresses. -/
theorem C4_one_record_per_nonblank (addresses : List String) (size : ℕ)
    (classifyFor : ℕ → ℕ → Except ApiError (List ClassResult)) (jitter : ℕ → ℚ)
    (hsz : 0 < size)
    (hok : ∀ p ∈ (create_batches addresses size).enum,
      ((process_address_batch_with_backoff (classifyFor p.1) jitter p.2).outcome).isFatal
        = false) :
    ((((create_batches addresses size).enum).map (fun p =>
        outcomeRecords
          (process_address_batch_with_backoff (classifyFor p.1) jitter p.2).outcome)).flatten).map
      OutputRecord.address = validAddresses addresses ∧
    ((((create_batches addresses size).enum).map (fun p =>
        outcomeRecords
          (process_address_batch_with_backoff (classifyFor p.1) jitter p.2).outcome)).flatten).length
      = (validAddresses addresses).length := by
  have h1 := batches_records_addresses classifyFor jitter (create_batches addresses size) 0 hok
  have h2 : ((create_batches addresses size).map validAddresses).flatten
      = validAddresses addresses := by
    rw [validAddresses_join]
    unfold create_batches
    rw [create_batchesAux_join size hsz addresses.length addresses le_rfl]
  have h3 := h1.trans h2
  refine ⟨h3, ?_⟩
  have h4 := congrArg List.length h3
  rw [List.length_map] at h4
  exact h4

/-- C4 witness: a run with blank and whitespace-only addresses mixed in. -/
theorem C4_one_record_per_nonblank_witness :
    ((((create_batches ["a", "", " ", "b"] 2).enum).map (fun p =>
        outcomeRecords
          (process_address_batch_with_backoff ((fun _ _ => .ok []) p.1) (fun _ => 0)
            p.2).outcome)).flatten).map
      OutputRecord.address = validAddresses ["a", "", " ", "b"] :=
  (C4_one_record_per_nonblank ["a", "", " ", "b"] 2 (fun _ _ => .ok []) (fun _ => 0)
    (by decide) (by decide)).1

/-- C5 counterexample: a remote result carrying only a high confidence (no
shortForm, no longForm) passes the acceptance guard — `dict.get` returns
None for the missing shortForm, and None differs from "UNKNOWN" — so the
written record has address and confidence but neither all three success
fields nor an error: neither of the claim's two shapes. -/
theorem C5_counterexample :
    (process_address_batch_with_backoff
        (fun _ => .ok [⟨none, none, some (mkRat 9 10)⟩]) (fun _ => 0) ["a"]).outcome
      = .success [⟨"a", none, none, some (mkRat 9 10), none⟩] ∧
    ¬ shapeExactlyOne ⟨"a", none, none, some (mkRat 9 10), none⟩ :=
  ⟨by decide, by unfold shapeExactlyOne; decide⟩

/-- C5 (amended): provided every result object of every successful
response carries all three fields (shortForm, longForm, confidence) — the
documented remote contract — every record written has a nonempty address
and satisfies exactly one of the two shapes: all three success fields
present, or the error field present. -/
theorem C5_record_shape (classify : ℕ → Except ApiError (List ClassResult))
    (jitter : ℕ → ℚ) (batch : List String)
    (hfull : ∀ k results, classify k = .ok results →
      ∀ r ∈ results, r.shortForm.isSome ∧ r.longForm.isSome ∧ r.confidence.isSome) :
    ∀ o ∈ outcomeRecords (process_address_batch_with_backoff classify jitter batch).outcome,
      o.address ≠ "" ∧ shapeExactlyOne o := by
  intro o ho
  rcases hrun : process_address_batch_with_backoff classify jitter batch with ⟨out, sl⟩
  rw [hrun] at ho
  cases out with
  | fatal m => simp [outcomeRecords] at ho
  | success recs =>
    rcases processLoop_success_char classify jitter batch 10 0 1 [] recs sl hrun with
      ⟨hv, rfl⟩ | ⟨k, results, hok, rfl⟩
    · simp [outcomeRecords] at ho
    · simp only [outcomeRecords] at ho
      obtain ⟨j, addr, hmem, rfl⟩ := mkRecords_mem results 0 _ o ho
      constructor
      · rw [mkRecord_address]
        have hp := List.of_mem_filter hmem
        simp only [Bool.and_eq_true, bne_iff_ne, ne_eq] at hp
        exact hp.1
      · have hfull2 := hfull k results hok
        unfold mkRecord shapeExactlyOne
        cases hr : results[j]? with
        | none => simp
        | some r =>
          dsimp only
          split
          next hcond =>
            left
            refine ⟨hfull2 r ?_, rfl⟩
            exact List.getElem?_mem hr
          next hcond =>
            right
            simp

/-- C5 witness: a fully populated result yields a record with nonempty
address and exactly one of the two shapes. -/
theorem C5_record_shape_witness :
    (mkRecord [⟨some "US", some "United States", some 1⟩] 0 "a").address ≠ "" ∧
    shapeExactlyOne (mkRecord [⟨some "US", some "United States", some 1⟩] 0 "a") :=
  C5_record_shape (fun _ => .ok [⟨some "US", some "United States", some 1⟩]) (fun _ => 0)
    ["a"]
    (by
      intro k results h r hr
      injection h with h2
      subst h2
      simp only [List.mem_singleton] at hr
      subst hr
      decide)
    (mkRecord [⟨some "US", some "United States", some 1⟩] 0 "a") (by decide)

/-- C7: within one batch the delay starts at 1 and each retry multiplies
it by `2 * (1 + u)` with `u` the next jitter draw in [0, 1); for every
jitter sequence the delay strictly grows and is never reset, and the sleep
trace of a run with K failures then success is exactly the successive
computed delays. -/
theorem C7_backoff_delays (jitter : ℕ → ℚ) (classify : ℕ → Except ApiError (List ClassResult))
    (batch : List String) (K : ℕ) (results : List ClassResult)
    (hj : ∀ n, 0 ≤ jitter n ∧ jitter n < 1)
    (hv : validAddresses batch ≠ []) (hK : K ≤ 10)
    (herr : ∀ k, k < K → ∃ e, classify k = .error e)
    (hok : classify K = .ok results) :
    delaySeq jitter 0 = 1 ∧
    (∀ n, delaySeq jitter n < delaySeq jitter (n + 1)) ∧
    (process_address_batch_with_backoff classify jitter batch).sleeps
      = (List.range K).map (fun n => delaySeq jitter (n + 1)) := by
  refine ⟨rfl, fun n => delaySeq_lt_succ jitter (fun m => (hj m).1) n, ?_⟩
  have hrun := processLoop_run_to_success classify jitter batch hv K 0 10 1 [] results hK
    (fun k hk1 hk2 => herr k (by omega)) (by simpa using hok)
  unfold process_address_batch_with_backoff
  rw [hrun]
  have h1 : (1 : ℚ) = delaySeq jitter 0 := rfl
  dsimp only
  rw [h1, sleepsFrom_delaySeq]
  simp [Nat.zero_add]

/-- C7 witness: two rate-limit failures then success on `["x"]`. -/
theorem C7_backoff_delays_witness :
    (process_address_batch_with_backoff (classifyStub 2 .RateLimited []) (fun _ => 0)
        ["x"]).sleeps
      = (List.range 2).map (fun n => delaySeq (fun _ => 0) (n + 1)) :=
  (C7_backoff_delays (fun _ => 0) (classifyStub 2 .RateLimited []) ["x"] 2 []
    (fun _ => ⟨le_rfl, zero_lt_one⟩) (by decide) (by decide)
    (fun k hk => ⟨.RateLimited, by unfold classifyStub; rw [if_pos hk]⟩)
    (by unfold classifyStub; rw [if_neg (by decide)])).2.2

/-- C9 counterexample: with the input path missing, `main` prints the
error and returns normally, so the process exits 0 — not non-zero as the
claim says; and with the input present, a batch that exhausts its retries
makes the process exit non-zero — not 0 as the claim says for "every other
case". -/
theorem C9_counterexample :
    main_run false ["x"] (fun _ _ => .ok []) (fun _ => 0) 50 = ⟨true, false, 0⟩ ∧
    (main_run true ["a"] (fun _ _ => .error .RateLimited) (fun _ => 0) 50).exitCode = 1 :=
  ⟨by decide, by decide⟩

/-- C9 (amended): if the input path does not exist, the user-facing error
is printed, no output is written, and the process exits 0; if the input
exists and has no addresses, the run exits 0 without writing output;
otherwise the run writes output and exits 0 when no batch exhausts its
retries, and exits non-zero when some batch does. -/
theorem C9_exit_behavior (addresses : List String)
    (classifyFor : ℕ → ℕ → Except ApiError (List ClassResult)) (jitter : ℕ → ℚ)
    (size : ℕ) :
    main_run false addresses classifyFor jitter size = ⟨true, false, 0⟩ ∧
    main_run true [] classifyFor jitter size = ⟨false, false, 0⟩ ∧
    (addresses ≠ [] →
      ((∀ p ∈ (create_batches addresses size).enum,
          ((process_address_batch_with_backoff (classifyFor p.1) jitter p.2).outcome).isFatal
            = false) →
        main_run true addresses classifyFor jitter size = ⟨false, true, 0⟩) ∧
      ((∃ p ∈ (create_batches addresses size).enum,
          ((process_address_batch_with_backoff (classifyFor p.1) jitter p.2).outcome).isFatal
            = true) →
        (main_run true addresses classifyFor jitter size).exitCode = 1)) := by
  refine ⟨rfl, rfl, fun hne => ⟨?_, ?_⟩⟩
  · intro hall
    unfold main_run
    rw [if_neg (by simp)]
    rw [if_neg (by simpa [List.isEmpty_iff] using hne)]
    have hany : (create_batches addresses size).enum.any (fun p =>
        ((process_address_batch_with_backoff (classifyFor p.1) jitter p.2).outcome).isFatal)
        = false := by
      rw [List.any_eq_false]
      intro p hp
      simp [hall p hp]
    simp only [hany, Bool.false_eq_true, if_false]
  · rintro ⟨p, hp, hfat⟩
    unfold main_run
    rw [if_neg (by simp)]
    rw [if_neg (by simpa [List.isEmpty_iff] using hne)]
    have hany : (create_batches addresses size).enum.any (fun p =>
        ((process_address_batch_with_backoff (classifyFor p.1) jitter p.2).outcome).isFatal)
        = true :=
      List.any_eq_true.mpr ⟨p, hp, hfat⟩
    simp only [hany, if_true]

/-- C9 witness: input present, one clean batch — output written, exit 0. -/
theorem C9_exit_behavior_witness :
    main_run true ["a"] (fun _ _ => .ok []) (fun _ => 0) 50 = ⟨false, true, 0⟩ :=
  ((C9_exit_behavior ["a"] (fun _ _ => .ok []) (fun _ => 0) 50).2.2 (by decide)).1 (by decide)

end AddressClassify
